import Mathlib

/-!
Shallow embedding of the reconciliation engine of `hana_snowflake_comparison.py`
(class `DatabaseComparator`, method `compare_tables`), together with the second
copy of the engine in `data_ops/scripts/hana_snowflake_comparison.py`, and
proofs of the specified properties.

Modelling conventions:
  * A fetched table is a list of rows; a row is an association list from column
    name to scalar value (the connectors build each DataFrame from a cursor so
    every row carries the full column set; the embedding keeps rows individual).
  * Scalar values carry a type tag (integer, float, string, boolean, null,
    timestamp).  Python floats are modelled as exact rationals; IEEE NaN and
    numpy box types are outside the model.  Booleans pass the
    `isinstance(v, (int, float))` test — native Python `bool` is a subclass
    of `int` — and convert by `float(False) = 0.0`, `float(True) = 1.0`, so
    they are judged in the numeric tolerance branch.
  * `df.set_index(key_columns)` becomes `buildIndex`: it fails when
    `key_columns` is empty (pandas raises `ValueError` from
    `MultiIndex.from_arrays([])`) or when a key column is absent (pandas raises
    `KeyError`); duplicates of a key tuple are retained, exactly as
    `set_index` retains them.
  * `Index.difference` / `Index.intersection` become `indexDifference` /
    `indexIntersection`; pandas additionally sorts the difference where
    possible, while the embedding keeps input order — every property proved
    about them here is at the level of the underlying set of keys, where the
    two agree.
  * `df.loc[key]` on a duplicated key returns several rows; the per-key value
    comparison then evaluates the truth value of a pandas Series and raises
    `ValueError` as soon as one column is compared — modelled by the
    `duplicateKeyAmbiguous` error.
  * `range(0, n, chunk_size)` becomes `chunkStarts` (empty for a negative
    step, an error for a zero step, as in Python).
  * The `timestamp` field (`datetime.now().isoformat()`) is not part of the
    model; all statements about the result are modulo the timestamp.
-/

inductive Value where
  | intV (z : Int)
  | floatV (q : Rat)
  | strV (s : String)
  | boolV (b : Bool)
  | nullV
  | timeV (t : Int)
deriving DecidableEq, Repr

/-- A row: mapping from column name to scalar value. -/
abbrev Row : Type := List (String × Value)

/-- A key tuple: the values of the key columns, in key-column order. -/
abbrev Key : Type := List Value

/-- `row[col]` when `col in row`, else absent (first matching column wins,
as in a dict). -/
def rowGet (r : Row) (c : String) : Option Value :=
  (r.find? (fun p => decide (p.1 = c))).map (fun p => p.2)

/-- `hana_val = hana_row[col] if col in hana_row else None`: an absent column
participates as the null value. -/
def effValue (r : Row) (c : String) : Value :=
  (rowGet r c).getD .nullV

/-- The key tuple of a row, `none` when some key column is missing. -/
def keyOf (kc : List String) (r : Row) : Option Key :=
  match kc with
  | [] => some []
  | c :: cs =>
      match rowGet r c, keyOf cs r with
      | some v, some k => some (v :: k)
      | _, _ => none

/-- A Python for-loop collecting one value per element, aborted by the first
raised error. -/
def mapExcept (f : α → Except CmpError β) : List α → Except CmpError (List β)
  | [] => .ok []
  | a :: l =>
      match f a with
      | .error e => .error e
      | .ok b =>
          match mapExcept f l with
          | .error e => .error e
          | .ok bs => .ok (b :: bs)

/-- `set_index` moves the key columns out of the data columns. -/
def dropKeys (kc : List String) (r : Row) : Row :=
  r.filter (fun p => decide (p.1 ∉ kc))

/-- Errors the comparison can raise (pandas `ValueError`/`KeyError`; the spec
groups the first two as `SchemaError`). -/
inductive CmpError where
  | emptyKeys
  | missingKeyColumn
  | duplicateKeyAmbiguous
  | zeroChunkSize
deriving DecidableEq, Repr

/-- `df.set_index(key_columns)`: the key index, one entry per row, duplicate
keys retained in row order. -/
def buildIndex (kc : List String) (rows : List Row) :
    Except CmpError (List (Key × Row)) :=
  if kc = [] then .error .emptyKeys
  else mapExcept (fun r =>
    match keyOf kc r with
    | some k => .ok (k, dropKeys kc r)
    | none => .error .missingKeyColumn) rows

/-- `a.difference(b)`: keys of `a` absent from `b`, deduplicated (pandas also
sorts where possible; all uses here are set-level). -/
def indexDifference (a b : List Key) : List Key :=
  (a.filter (fun k => decide (k ∉ b))).dedup

/-- `a.intersection(b)`: keys present in both, deduplicated. -/
def indexIntersection (a b : List Key) : List Key :=
  (a.filter (fun k => decide (k ∈ b))).dedup

/-- `df.loc[k]`: every index entry whose key equals `k`, in order. -/
def locRecords (idx : List (Key × Row)) (k : Key) : List (Key × Row) :=
  idx.filter (fun e => decide (e.1 = k))

/-- `df.loc[ks].reset_index().to_dict('records')`: full row content (key
columns restored in front) for each key of `ks`. -/
def fullRows (kc : List String) (idx : List (Key × Row)) (ks : List Key) :
    List Row :=
  ks.flatMap (fun k => (locRecords idx k).map (fun e => kc.zip e.1 ++ e.2))

/-- Column names present in the data part of an index. -/
def idxColumns (idx : List (Key × Row)) : List String :=
  (idx.flatMap (fun e => e.2.map (fun p => p.1))).dedup

/-- Column names occurring in a fetched row set (for a uniform-column
DataFrame this is its column list). -/
def rowsColumns (rows : List Row) : List String :=
  (rows.flatMap (fun r => r.map (fun p => p.1))).dedup

/-- `list(set(hana_df.columns) & set(snowflake_df.columns))` (both frames
already indexed, so key columns are excluded). -/
def resolvedColumns (srcIdx tgtIdx : List (Key × Row)) : List String :=
  (idxColumns srcIdx).filter (fun c => decide (c ∈ idxColumns tgtIdx))

/-- `isinstance(v, (int, float))`: true for integers, floats and booleans
(Python `bool` is a subclass of `int`). -/
def isNumeric : Value → Bool
  | .intV _ => true
  | .floatV _ => true
  | .boolV _ => true
  | _ => false

/-- `float(v)` on a value passing the `isinstance` test
(`float(False) = 0.0`, `float(True) = 1.0`). -/
def asFloat : Value → Rat
  | .intV z => (z : Rat)
  | .floatV q => q
  | .boolV b => if b then 1 else 0
  | _ => 0

/-- The comparison tolerance `1e-10`. -/
def eps : Rat := 1 / 10 ^ 10

/-- One column comparison: numeric values differ when
`abs(float(a) - float(b)) > 1e-10`, anything else by exact inequality. -/
def valuesDiffer (a b : Value) : Bool :=
  if isNumeric a && isNumeric b then decide (eps < |asFloat a - asFloat b|)
  else decide (a ≠ b)

/-- The `differences` dict `{'hana_value': ..., 'snowflake_value': ...}`. -/
structure DiffPair where
  hana_value : Value
  snowflake_value : Value
deriving DecidableEq, Repr

/-- The per-key `differences` dict, one entry per differing compare column, in
compare-column order (dict insertion order; compare columns are distinct in a
DataFrame). -/
def rowDiffs (cols : List String) (sr tr : Row) : List (String × DiffPair) :=
  cols.filterMap (fun c =>
    let sv := effValue sr c
    let tv := effValue tr c
    if valuesDiffer sv tv then some (c, ⟨sv, tv⟩) else none)

/-- One entry of `value_differences`. -/
structure DiffRecord where
  key : List (String × Value)
  differences : List (String × DiffPair)
deriving DecidableEq, Repr

/-- The loop body for one common key: with a unique row on each side, record
the key when at least one column differs; a duplicated key makes `df.loc`
return several rows, and comparing any column then evaluates the truth value
of a Series, which raises (unless there is no column to compare). -/
def perKeyDiff (kc cols : List String) (srcIdx tgtIdx : List (Key × Row))
    (k : Key) : Except CmpError (List DiffRecord) :=
  match locRecords srcIdx k, locRecords tgtIdx k with
  | [e], [f] =>
      let ds := rowDiffs cols e.2 f.2
      .ok (if ds = [] then [] else [⟨kc.zip k, ds⟩])
  | _, _ => if cols = [] then .ok [] else .error .duplicateKeyAmbiguous

/-- The chunk starts `range(0, n, chunk_size)` for a nonzero step: empty when
the step is negative, `0, s, 2s, ...` below `n` otherwise. -/
def chunkStarts (n : Nat) (cs : Int) : List Nat :=
  if cs ≤ 0 then []
  else (List.range ((n + cs.toNat - 1) / cs.toNat)).map (fun k => k * cs.toNat)

/-- The chunks `common_keys[i:i + chunk_size]` in iteration order. -/
def chunkSlices (common : List Key) (cs : Int) : List (List Key) :=
  (chunkStarts common.length cs).map
    (fun i => (common.drop i).take cs.toNat)

/-- The comparison result (`result` dict), minus the `timestamp` field. -/
structure CompareResult where
  hana_row_count : Nat
  snowflake_row_count : Nat
  columns_compared : List String
  only_in_hana : List Row
  only_in_snowflake : List Row
  value_differences : List DiffRecord
deriving DecidableEq, Repr

/-- `DatabaseComparator.compare_tables`, from the two fetched row sets on:
index both sides, resolve compare columns, partition by key, then compare the
common keys chunk by chunk. -/
def compare_tables (hana_rows snowflake_rows : List Row)
    (key_columns : List String) (compare_columns : Option (List String))
    (chunk_size : Int) : Except CmpError CompareResult :=
  match buildIndex key_columns hana_rows, buildIndex key_columns snowflake_rows with
  | .ok hanaIdx, .ok sfIdx =>
      let cols := compare_columns.getD (resolvedColumns hanaIdx sfIdx)
      let hanaKeys := hanaIdx.map (fun e => e.1)
      let sfKeys := sfIdx.map (fun e => e.1)
      let onlyH := indexDifference hanaKeys sfKeys
      let onlyS := indexDifference sfKeys hanaKeys
      let common := indexIntersection hanaKeys sfKeys
      if chunk_size = 0 then .error .zeroChunkSize
      else
        match mapExcept (perKeyDiff key_columns cols hanaIdx sfIdx)
            ((chunkSlices common chunk_size).flatten) with
        | .ok recs =>
            .ok { hana_row_count := hana_rows.length
                  snowflake_row_count := snowflake_rows.length
                  columns_compared := cols
                  only_in_hana := fullRows key_columns hanaIdx onlyH
                  only_in_snowflake := fullRows key_columns sfIdx onlyS
                  value_differences := recs.flatten }
        | .error e => .error e
  | .error e, _ => .error e
  | _, .error e => .error e

/-!
The second copy of the engine,
`data_ops/scripts/hana_snowflake_comparison.py`.  Its `compare_tables` body is
line-for-line the same except for renamed variables and result-dictionary
fields (`src_...`/`tgt_...` instead of `hana_...`/`snowflake_...`); the
helpers above whose meaning does not depend on those names are shared, and
the name-bearing parts are embedded again below.
-/

/-- The `differences` dict of the second copy:
`{'src_value': ..., 'tgt_value': ...}`. -/
structure DiffPairV2 where
  src_value : Value
  tgt_value : Value
deriving DecidableEq, Repr

/-- Per-key `differences` dict of the second copy. -/
def rowDiffsV2 (cols : List String) (sr tr : Row) : List (String × DiffPairV2) :=
  cols.filterMap (fun c =>
    let sv := effValue sr c
    let tv := effValue tr c
    if valuesDiffer sv tv then some (c, ⟨sv, tv⟩) else none)

/-- One entry of `value_differences` in the second copy. -/
structure DiffRecordV2 where
  key : List (String × Value)
  differences : List (String × DiffPairV2)
deriving DecidableEq, Repr

/-- The loop body for one common key in the second copy. -/
def perKeyDiffV2 (kc cols : List String) (srcIdx tgtIdx : List (Key × Row))
    (k : Key) : Except CmpError (List DiffRecordV2) :=
  match locRecords srcIdx k, locRecords tgtIdx k with
  | [e], [f] =>
      let ds := rowDiffsV2 cols e.2 f.2
      .ok (if ds = [] then [] else [⟨kc.zip k, ds⟩])
  | _, _ => if cols = [] then .ok [] else .error .duplicateKeyAmbiguous

/-- The `result` dict of the second copy, minus the `timestamp` field. -/
structure CompareResultV2 where
  src_row_count : Nat
  tgt_row_count : Nat
  columns_compared : List String
  only_in_src : List Row
  only_in_tgt : List Row
  value_differences : List DiffRecordV2
deriving DecidableEq, Repr

/-- `DatabaseComparator.compare_tables` of the second copy. -/
def compare_tablesV2 (src_rows tgt_rows : List Row)
    (key_columns : List String) (compare_columns : Option (List String))
    (chunk_size : Int) : Except CmpError CompareResultV2 :=
  match buildIndex key_columns src_rows, buildIndex key_columns tgt_rows with
  | .ok srcIdx, .ok tgtIdx =>
      let cols := compare_columns.getD (resolvedColumns srcIdx tgtIdx)
      let srcKeys := srcIdx.map (fun e => e.1)
      let tgtKeys := tgtIdx.map (fun e => e.1)
      let onlyS := indexDifference srcKeys tgtKeys
      let onlyT := indexDifference tgtKeys srcKeys
      let common := indexIntersection srcKeys tgtKeys
      if chunk_size = 0 then .error .zeroChunkSize
      else
        match mapExcept (perKeyDiffV2 key_columns cols srcIdx tgtIdx)
            ((chunkSlices common chunk_size).flatten) with
        | .ok recs =>
            .ok { src_row_count := src_rows.length
                  tgt_row_count := tgt_rows.length
                  columns_compared := cols
                  only_in_src := fullRows key_columns srcIdx onlyS
                  only_in_tgt := fullRows key_columns tgtIdx onlyT
                  value_differences := recs.flatten }
        | .error e => .error e
  | .error e, _ => .error e
  | _, .error e => .error e

/-- Field renaming `hana_value ↦ src_value`, `snowflake_value ↦ tgt_value`. -/
def renamePair (d : DiffPair) : DiffPairV2 :=
  ⟨d.hana_value, d.snowflake_value⟩

/-- Field renaming on one `value_differences` entry. -/
def renameRecord (d : DiffRecord) : DiffRecordV2 :=
  ⟨d.key, d.differences.map (fun p => (p.1, renamePair p.2))⟩

/-- Field renaming `hana_row_count ↦ src_row_count`,
`snowflake_row_count ↦ tgt_row_count`, `only_in_hana ↦ only_in_src`,
`only_in_snowflake ↦ only_in_tgt` on a whole result. -/
def renameResult (r : CompareResult) : CompareResultV2 :=
  ⟨r.hana_row_count, r.snowflake_row_count, r.columns_compared,
    r.only_in_hana, r.only_in_snowflake, r.value_differences.map renameRecord⟩

/-! ### General lemmas about the embedded operations -/

theorem flatten_slices_fuel {α : Type} (s : Nat) (hs : 0 < s) (n : Nat) :
    ∀ l : List α, l.length ≤ n →
      ((List.range ((l.length + s - 1) / s)).map
        (fun k => (l.drop (k * s)).take s)).flatten = l := by
  induction n with
  | zero =>
      intro l hl
      have hln : l = [] := List.eq_nil_of_length_eq_zero (Nat.le_zero.mp hl)
      subst hln
      simp
  | succ n ih =>
      intro l hl
      cases l with
      | nil => simp
      | cons a t =>
          have hm : ((a :: t).length + s - 1) / s = t.length / s + 1 := by
            have h1 : (a :: t).length + s - 1 = t.length + s := by
              simp only [List.length_cons]; omega
            rw [h1, Nat.add_div_right _ hs]
          have hm2 : t.length / s = (((a :: t).drop s).length + s - 1) / s := by
            have h2 : ((a :: t).drop s).length = (a :: t).length - s := by simp
            rcases Nat.lt_or_ge t.length s with hlt | hge
            · have h3 : (a :: t).length - s = 0 := by
                simp only [List.length_cons]; omega
              rw [Nat.div_eq_of_lt hlt, h2, h3]
              exact (Nat.div_eq_of_lt (by omega)).symm
            · have h4 : ((a :: t).drop s).length + s - 1 = t.length := by
                rw [h2]; simp only [List.length_cons]; omega
              rw [h4]
          rw [hm, List.range_succ_eq_map, List.map_cons, List.flatten_cons,
            List.map_map]
          have hmap : List.map ((fun k => ((a :: t).drop (k * s)).take s) ∘
                Nat.succ) (List.range (t.length / s)) =
              List.map (fun k => (((a :: t).drop s).drop (k * s)).take s)
                (List.range (t.length / s)) := by
            apply List.map_congr_left
            intro k _
            simp only [Function.comp_apply, List.drop_drop]
            congr 2
            rw [Nat.succ_mul]
            omega
          have hl' : ((a :: t).drop s).length ≤ n := by
            simp only [List.length_drop, List.length_cons]
            simp only [List.length_cons] at hl
            omega
          rw [hmap, hm2, ih ((a :: t).drop s) hl']
          simp

theorem flatten_chunkSlices (common : List Key) (cs : Int) (h : 0 < cs) :
    (chunkSlices common cs).flatten = common := by
  have hs : 0 < cs.toNat := by omega
  unfold chunkSlices chunkStarts
  rw [if_neg (by omega), List.map_map]
  exact flatten_slices_fuel cs.toNat hs common.length common le_rfl

theorem mapExcept_ok_iff {β : Type} {f : α → Except CmpError β} :
    ∀ {l : List α} {res : List β},
      mapExcept f l = Except.ok res ↔
        List.Forall₂ (fun a b => f a = Except.ok b) l res := by
  intro l
  induction l with
  | nil =>
      intro res
      constructor
      · intro h
        simp only [mapExcept, Except.ok.injEq] at h
        subst h
        exact List.Forall₂.nil
      · intro h
        cases h
        rfl
  | cons a l ih =>
      intro res
      constructor
      · intro h
        simp only [mapExcept] at h
        cases hfa : f a with
        | error e => rw [hfa] at h; cases h
        | ok b =>
            rw [hfa] at h
            cases hrec : mapExcept f l with
            | error e => rw [hrec] at h; cases h
            | ok bs =>
                rw [hrec] at h
                simp only [Except.ok.injEq] at h
                subst h
                exact List.Forall₂.cons hfa (ih.mp hrec)
      · intro h
        cases h with
        | cons hab htail =>
            simp only [mapExcept]
            rw [hab, ih.mpr htail]

theorem mapExcept_error_mem {β : Type} {f : α → Except CmpError β} :
    ∀ {l : List α} {e : CmpError}, mapExcept f l = Except.error e →
      ∃ a ∈ l, f a = Except.error e := by
  intro l
  induction l with
  | nil => intro e h; simp only [mapExcept] at h; cases h
  | cons a l ih =>
      intro e h
      simp only [mapExcept] at h
      cases hfa : f a with
      | error e₁ =>
          rw [hfa] at h
          simp only [Except.error.injEq] at h
          subst h
          exact ⟨a, by simp, hfa⟩
      | ok b =>
          rw [hfa] at h
          cases hrec : mapExcept f l with
          | error e₁ =>
              rw [hrec] at h
              simp only [Except.error.injEq] at h
              subst h
              obtain ⟨x, hx, hfx⟩ := ih hrec
              exact ⟨x, by simp [hx], hfx⟩
          | ok bs => rw [hrec] at h; cases h

theorem mapExcept_ok_of_forall {β : Type} {f : α → Except CmpError β}
    {g : α → β} : ∀ {l : List α}, (∀ a ∈ l, f a = Except.ok (g a)) →
      mapExcept f l = Except.ok (l.map g) := by
  intro l
  induction l with
  | nil => intro _; rfl
  | cons a l ih =>
      intro h
      simp only [mapExcept]
      rw [h a (by simp), ih (fun x hx => h x (by simp [hx]))]
      rfl

theorem mapExcept_comp_map {β γ : Type} {f : α → Except CmpError β}
    (h : β → γ) : ∀ l : List α,
      mapExcept (fun a => (f a).map h) l = (mapExcept f l).map (List.map h) := by
  intro l
  induction l with
  | nil => rfl
  | cons a l ih =>
      simp only [mapExcept, ih]
      cases f a with
      | error e => rfl
      | ok b =>
          simp only [Except.map]
          cases mapExcept f l with
          | error e => rfl
          | ok bs => rfl

theorem mem_indexDifference {k : Key} {a b : List Key} :
    k ∈ indexDifference a b ↔ k ∈ a ∧ k ∉ b := by
  simp [indexDifference]

theorem mem_indexIntersection {k : Key} {a b : List Key} :
    k ∈ indexIntersection a b ↔ k ∈ a ∧ k ∈ b := by
  simp [indexIntersection]

theorem mem_fullRows {r : Row} {kc : List String} {idx : List (Key × Row)}
    {ks : List Key} :
    r ∈ fullRows kc idx ks ↔
      ∃ k ∈ ks, ∃ e ∈ idx, e.1 = k ∧ r = kc.zip e.1 ++ e.2 := by
  simp only [fullRows, locRecords, List.mem_flatMap, List.mem_map,
    List.mem_filter, decide_eq_true_eq]
  constructor
  · rintro ⟨k, hk, e, ⟨he, hek⟩, hr⟩
    exact ⟨k, hk, e, he, hek, hr.symm⟩
  · rintro ⟨k, hk, e, he, hek, hr⟩
    exact ⟨k, hk, e, ⟨he, hek⟩, hr.symm⟩

theorem keyOf_eq_none_iff {kc : List String} {r : Row} :
    keyOf kc r = none ↔ ∃ c ∈ kc, rowGet r c = none := by
  induction kc with
  | nil => simp [keyOf]
  | cons c cs ih =>
      cases hc : rowGet r c with
      | none =>
          simp only [keyOf, hc]
          exact iff_of_true (by trivial) ⟨c, by simp, hc⟩
      | some v =>
          cases hk : keyOf cs r with
          | none =>
              simp only [keyOf, hc, hk]
              refine iff_of_true (by trivial) ?_
              obtain ⟨c', hc', hg⟩ := ih.mp hk
              exact ⟨c', by simp [hc'], hg⟩
          | some k =>
              simp only [keyOf, hc, hk]
              refine iff_of_false (by simp) ?_
              rintro ⟨c', hc', hg⟩
              rcases List.mem_cons.mp hc' with h1 | h1
              · subst h1; rw [hc] at hg; cases hg
              · have h2 : keyOf cs r = none := ih.mpr ⟨c', h1, hg⟩
                rw [hk] at h2; cases h2

theorem forall2_mem_left {β : Type} {R : α → β → Prop} :
    ∀ {l₁ : List α} {l₂ : List β}, List.Forall₂ R l₁ l₂ →
      ∀ a ∈ l₁, ∃ b, R a b := by
  intro l₁ l₂ h
  induction h with
  | nil => intro a ha; cases ha
  | cons hab _ ih =>
      intro x hx
      rcases List.mem_cons.mp hx with h1 | h1
      · subst h1; exact ⟨_, hab⟩
      · exact ih x h1

theorem buildIndex_ok_snd {kc : List String} {rows : List Row}
    {idx : List (Key × Row)} (h : buildIndex kc rows = .ok idx) :
    idx.map Prod.snd = rows.map (dropKeys kc) := by
  unfold buildIndex at h
  by_cases hkc : kc = []
  · rw [if_pos hkc] at h; cases h
  · rw [if_neg hkc] at h
    have h2 := mapExcept_ok_iff.mp h
    clear h
    induction h2 with
    | nil => rfl
    | cons hab _ ih =>
        rename_i a l₁ b l₂ _
        cases hk : keyOf kc a with
        | none => rw [hk] at hab; cases hab
        | some k =>
            rw [hk] at hab
            simp only [Except.ok.injEq] at hab
            subst hab
            simp only [List.map_cons, ih]

theorem buildIndex_ok_of_keys {kc : List String} {rows : List Row}
    (hkc : kc ≠ []) (h : ∀ r ∈ rows, keyOf kc r ≠ none) :
    buildIndex kc rows =
      .ok (rows.map (fun r => ((keyOf kc r).getD [], dropKeys kc r))) := by
  unfold buildIndex
  rw [if_neg hkc]
  apply mapExcept_ok_of_forall
  intro r hr
  cases hk : keyOf kc r with
  | none => exact absurd hk (h r hr)
  | some k => simp [hk]

theorem buildIndex_error_missing {kc : List String} {rows : List Row}
    (hkc : kc ≠ []) (hmiss : ∃ r ∈ rows, keyOf kc r = none) :
    buildIndex kc rows = .error .missingKeyColumn := by
  unfold buildIndex
  rw [if_neg hkc]
  obtain ⟨r, hr, hk⟩ := hmiss
  cases hres : mapExcept (fun r =>
      match keyOf kc r with
      | some k => Except.ok (k, dropKeys kc r)
      | none => Except.error CmpError.missingKeyColumn) rows with
  | ok res =>
      exfalso
      obtain ⟨b, hb⟩ := forall2_mem_left (mapExcept_ok_iff.mp hres) r hr
      rw [hk] at hb
      cases hb
  | error e =>
      obtain ⟨x, _, hfx⟩ := mapExcept_error_mem hres
      cases hkx : keyOf kc x with
      | none => rw [hkx] at hfx; injection hfx with he; rw [he]
      | some k => rw [hkx] at hfx; cases hfx

theorem compare_tables_ok_unfold {A B : List Row} {kc : List String}
    {cc : Option (List String)} {cs : Int} {hIdx sIdx : List (Key × Row)}
    (hA : buildIndex kc A = .ok hIdx) (hB : buildIndex kc B = .ok sIdx)
    (hcs : cs ≠ 0) :
    compare_tables A B kc cc cs =
      match mapExcept
          (perKeyDiff kc (cc.getD (resolvedColumns hIdx sIdx)) hIdx sIdx)
          ((chunkSlices (indexIntersection (hIdx.map (fun e => e.1))
            (sIdx.map (fun e => e.1))) cs).flatten) with
      | .ok recs =>
          .ok { hana_row_count := A.length
                snowflake_row_count := B.length
                columns_compared := cc.getD (resolvedColumns hIdx sIdx)
                only_in_hana := fullRows kc hIdx
                  (indexDifference (hIdx.map (fun e => e.1))
                    (sIdx.map (fun e => e.1)))
                only_in_snowflake := fullRows kc sIdx
                  (indexDifference (sIdx.map (fun e => e.1))
                    (hIdx.map (fun e => e.1)))
                value_differences := recs.flatten }
      | .error e => .error e := by
  unfold compare_tables
  rw [hA, hB]
  simp only [if_neg hcs]

theorem buildIndex_ok_eq_map {kc : List String} {rows : List Row}
    {idx : List (Key × Row)} (h : buildIndex kc rows = .ok idx) :
    idx = rows.map (fun r => ((keyOf kc r).getD [], dropKeys kc r)) := by
  unfold buildIndex at h
  by_cases hkc : kc = []
  · rw [if_pos hkc] at h; cases h
  · rw [if_neg hkc] at h
    have h2 := mapExcept_ok_iff.mp h
    clear h
    induction h2 with
    | nil => rfl
    | cons hab _ ih =>
        rename_i a l₁ b l₂ _
        cases hk : keyOf kc a with
        | none => rw [hk] at hab; cases hab
        | some k =>
            rw [hk] at hab
            simp only [Except.ok.injEq] at hab
            subst hab
            simp only [List.map_cons, hk, Option.getD_some, ih, List.cons.injEq,
              and_self]

theorem buildIndex_error_kind {kc : List String} {rows : List Row}
    {e : CmpError} (hkc : kc ≠ []) (h : buildIndex kc rows = .error e) :
    e = .missingKeyColumn := by
  unfold buildIndex at h
  rw [if_neg hkc] at h
  obtain ⟨x, _, hfx⟩ := mapExcept_error_mem h
  cases hkx : keyOf kc x with
  | none => rw [hkx] at hfx; injection hfx with he; rw [← he]
  | some k => rw [hkx] at hfx; cases hfx

theorem perKeyDiff_error_kind {kc cols : List String}
    {srcIdx tgtIdx : List (Key × Row)} {k : Key} {e : CmpError}
    (h : perKeyDiff kc cols srcIdx tgtIdx k = .error e) :
    e = .duplicateKeyAmbiguous := by
  unfold perKeyDiff at h
  split at h
  · simp at h
  · split at h
    · cases h
    · injection h with he; rw [← he]

theorem perKeyDiff_nil_cols {kc : List String}
    {srcIdx tgtIdx : List (Key × Row)} {k : Key} :
    perKeyDiff kc [] srcIdx tgtIdx k = .ok [] := by
  unfold perKeyDiff
  split
  · simp [rowDiffs]
  · simp

/-! ### The claims -/

/-- C2: for numeric operands the engine judges equality exactly when
`abs(a - b) <= 1e-10`; when it judges them unequal and the two values are the
observed values of a compare column, a `Difference` carrying both raw values
is recorded for that column; and the tolerance judgement is symmetric. -/
theorem numeric_tolerance_correct (a b : Value) (ha : isNumeric a = true)
    (hb : isNumeric b = true) :
    (valuesDiffer a b = false ↔ |asFloat a - asFloat b| ≤ eps)
    ∧ valuesDiffer a b = valuesDiffer b a
    ∧ (∀ (cols : List String) (sr tr : Row) (c : String), c ∈ cols →
        effValue sr c = a → effValue tr c = b → valuesDiffer a b = true →
        (c, ⟨a, b⟩) ∈ rowDiffs cols sr tr) := by
  refine ⟨?_, ?_, ?_⟩
  · unfold valuesDiffer
    rw [ha, hb]
    simp [not_lt]
  · unfold valuesDiffer
    rw [ha, hb]
    simp [abs_sub_comm]
  · intro cols sr tr c hc hsa htb hdiff
    unfold rowDiffs
    rw [List.mem_filterMap]
    refine ⟨c, hc, ?_⟩
    simp only [hsa, htb, hdiff, if_true]

theorem numeric_tolerance_correct_witness :
    (isNumeric (Value.intV 3) = true) ∧ (isNumeric (Value.floatV 3) = true)
    ∧ ((valuesDiffer (Value.intV 3) (Value.floatV 3) = false ↔
          |asFloat (Value.intV 3) - asFloat (Value.floatV 3)| ≤ eps)
        ∧ valuesDiffer (Value.intV 3) (Value.floatV 3) =
            valuesDiffer (Value.floatV 3) (Value.intV 3)
        ∧ (∀ (cols : List String) (sr tr : Row) (c : String), c ∈ cols →
            effValue sr c = Value.intV 3 → effValue tr c = Value.floatV 3 →
            valuesDiffer (Value.intV 3) (Value.floatV 3) = true →
            (c, ⟨Value.intV 3, Value.floatV 3⟩) ∈ rowDiffs cols sr tr)) :=
  ⟨rfl, rfl, numeric_tolerance_correct (Value.intV 3) (Value.floatV 3) rfl rfl⟩

/-- C3 (amended): when at least one observed value is a string, null or
timestamp — so the pair fails the `isinstance(v, (int, float))` test, which
booleans pass, Python `bool` being a subclass of `int`, and are therefore
judged in the numeric tolerance branch — the engine uses exact value
equality; null against non-null is always a recorded difference, both null
is never one, and an absent column participates as the null value. -/
theorem exact_equality_correct (a b : Value)
    (h : ¬(isNumeric a = true ∧ isNumeric b = true)) :
    (valuesDiffer a b = true ↔ a ≠ b)
    ∧ (a = Value.nullV → b ≠ Value.nullV → valuesDiffer a b = true)
    ∧ valuesDiffer Value.nullV Value.nullV = false
    ∧ (∀ (r : Row) (c : String), rowGet r c = none →
        effValue r c = Value.nullV)
    ∧ (∀ (cols : List String) (sr tr : Row) (c : String), c ∈ cols →
        effValue sr c = Value.nullV → effValue tr c ≠ Value.nullV →
        (c, ⟨Value.nullV, effValue tr c⟩) ∈ rowDiffs cols sr tr)
    ∧ (∀ (cols : List String) (sr tr : Row) (c : String) (p : DiffPair),
        effValue sr c = Value.nullV → effValue tr c = Value.nullV →
        (c, p) ∉ rowDiffs cols sr tr) := by
  have hand : (isNumeric a && isNumeric b) = false := by
    cases ha : isNumeric a <;> cases hb : isNumeric b <;> simp_all
  refine ⟨?_, ?_, ?_, ?_, ?_, ?_⟩
  · unfold valuesDiffer
    rw [hand]
    simp
  · intro hna hnb
    unfold valuesDiffer
    subst hna
    simp only [isNumeric]
    rw [if_neg (by simp)]
    simp only [decide_eq_true_eq]
    exact Ne.symm hnb
  · simp [valuesDiffer, isNumeric]
  · intro r c hrc
    simp [effValue, hrc]
  · intro cols sr tr c hc hsn htn
    unfold rowDiffs
    rw [List.mem_filterMap]
    refine ⟨c, hc, ?_⟩
    have hd : valuesDiffer Value.nullV (effValue tr c) = true := by
      unfold valuesDiffer
      simp only [isNumeric]
      rw [if_neg (by simp)]
      simp only [decide_eq_true_eq]
      exact Ne.symm htn
    simp only [hsn, hd, if_true]
  · intro cols sr tr c p hsn htn hmem
    rw [rowDiffs, List.mem_filterMap] at hmem
    obtain ⟨c', _, hc'⟩ := hmem
    by_cases hcc : valuesDiffer (effValue sr c') (effValue tr c') = true
    · rw [if_pos hcc] at hc'
      injection hc' with h1
      rw [Prod.mk.injEq] at h1
      obtain ⟨h1a, _⟩ := h1
      subst h1a
      rw [hsn, htn] at hcc
      simp [valuesDiffer, isNumeric] at hcc
    · rw [if_neg hcc] at hc'
      cases hc'

theorem exact_equality_correct_witness :
    (¬(isNumeric (Value.strV "x") = true ∧ isNumeric Value.nullV = true))
    ∧ ((valuesDiffer (Value.strV "x") Value.nullV = true ↔
          Value.strV "x" ≠ Value.nullV)
        ∧ (Value.strV "x" = Value.nullV → Value.nullV ≠ Value.nullV →
            valuesDiffer (Value.strV "x") Value.nullV = true)
        ∧ valuesDiffer Value.nullV Value.nullV = false
        ∧ (∀ (r : Row) (c : String), rowGet r c = none →
            effValue r c = Value.nullV)
        ∧ (∀ (cols : List String) (sr tr : Row) (c : String), c ∈ cols →
            effValue sr c = Value.nullV → effValue tr c ≠ Value.nullV →
            (c, ⟨Value.nullV, effValue tr c⟩) ∈ rowDiffs cols sr tr)
        ∧ (∀ (cols : List String) (sr tr : Row) (c : String) (p : DiffPair),
            effValue sr c = Value.nullV → effValue tr c = Value.nullV →
            (c, p) ∉ rowDiffs cols sr tr)) :=
  ⟨by decide, exact_equality_correct (Value.strV "x") Value.nullV (by decide)⟩

/-- C3, as stated: refuted — a boolean is not exempt from the numeric
branch.  `isinstance(True, (int, float))` holds (Python `bool` subclasses
`int`), so a boolean paired with a number is judged by the `1e-10`
tolerance on `float` values, not by exact equality: `True` against the
float `1 + 1e-11` is a mixed boolean/float pair of unequal values, yet the
engine judges them equal and records no `Difference` for the column. -/
theorem exact_equality_bool_counterexample :
    isNumeric (Value.boolV true) = true
    ∧ Value.boolV true ≠ Value.floatV (1 + 1 / 10 ^ 11)
    ∧ valuesDiffer (Value.boolV true) (Value.floatV (1 + 1 / 10 ^ 11)) = false
    ∧ rowDiffs ["v"] [("v", Value.boolV true)]
        [("v", Value.floatV (1 + 1 / 10 ^ 11))] = [] := by
  have hvd : valuesDiffer (Value.boolV true)
      (Value.floatV (1 + 1 / 10 ^ 11)) = false := by
    unfold valuesDiffer
    simp only [isNumeric, Bool.and_self]
    rw [if_pos trivial]
    simp only [asFloat, if_true, eps, decide_eq_false_iff_not, not_lt]
    have habs : |(1 : Rat) - (1 + 1 / 10 ^ 11)| = 1 / 10 ^ 11 := by
      rw [show (1 : Rat) - (1 + 1 / 10 ^ 11) = -(1 / 10 ^ 11) by ring,
        abs_neg, abs_of_nonneg (by norm_num)]
    rw [habs]
    norm_num
  have hs : effValue [("v", Value.boolV true)] "v" = Value.boolV true := rfl
  have ht : effValue [("v", Value.floatV (1 + 1 / 10 ^ 11))] "v" =
      Value.floatV (1 + 1 / 10 ^ 11) := rfl
  refine ⟨rfl, by simp, hvd, ?_⟩
  unfold rowDiffs
  rw [List.filterMap_eq_nil_iff]
  intro c hc
  have hcv : c = "v" := by simpa using hc
  subst hcv
  rw [hs, ht]
  dsimp only
  rw [hvd]
  simp

/-- C6: for fixed inputs, every positive chunk size produces the identical
result — the chunked iteration over common keys is equivalent to an unchunked
pass, so in particular `value_differences` is identical. -/
theorem chunk_size_invariance (A B : List Row) (kc : List String)
    (cc : Option (List String)) (cs cs' : Int) (h : 0 < cs) (h' : 0 < cs') :
    compare_tables A B kc cc cs = compare_tables A B kc cc cs' := by
  unfold compare_tables
  cases hA : buildIndex kc A with
  | error e => cases hB : buildIndex kc B <;> rfl
  | ok hIdx =>
      cases hB : buildIndex kc B with
      | error e => rfl
      | ok sIdx =>
          simp only [if_neg (show ¬cs = 0 by omega),
            if_neg (show ¬cs' = 0 by omega)]
          rw [flatten_chunkSlices _ _ h, flatten_chunkSlices _ _ h']

theorem chunk_size_invariance_witness :
    (0 < (1 : Int)) ∧ (0 < (7 : Int)) ∧
      compare_tables [[("id", Value.intV 1), ("v", Value.intV 10)],
          [("id", Value.intV 2), ("v", Value.intV 20)]]
        [[("id", Value.intV 1), ("v", Value.intV 11)]] ["id"] none 1 =
      compare_tables [[("id", Value.intV 1), ("v", Value.intV 10)],
          [("id", Value.intV 2), ("v", Value.intV 20)]]
        [[("id", Value.intV 1), ("v", Value.intV 11)]] ["id"] none 7 :=
  ⟨by decide, by decide,
    chunk_size_invariance _ _ ["id"] none 1 7 (by decide) (by decide)⟩


/-- C8: the engine is a deterministic pure function of its inputs (modulo the
timestamp, which the model omits): two calls on identical row sets, key
columns, compare columns and chunk size yield identical results. -/
theorem engine_deterministic (A B : List Row) (kc : List String)
    (cc : Option (List String)) (cs : Int) {r₁ r₂ : CompareResult}
    (h₁ : compare_tables A B kc cc cs = .ok r₁)
    (h₂ : compare_tables A B kc cc cs = .ok r₂) : r₁ = r₂ := by
  rw [h₁] at h₂
  injection h₂

theorem engine_deterministic_witness :
    (compare_tables [[("id", Value.intV 1)]] [[("id", Value.intV 1)]]
        ["id"] none 10000 =
      .ok { hana_row_count := 1, snowflake_row_count := 1,
            columns_compared := [], only_in_hana := [],
            only_in_snowflake := [], value_differences := [] })
    ∧ ({ hana_row_count := 1, snowflake_row_count := 1,
          columns_compared := [], only_in_hana := [],
          only_in_snowflake := [], value_differences := [] : CompareResult } =
        { hana_row_count := 1, snowflake_row_count := 1,
          columns_compared := [], only_in_hana := [],
          only_in_snowflake := [], value_differences := [] : CompareResult }) :=
  ⟨rfl,
    engine_deterministic [[("id", Value.intV 1)]] [[("id", Value.intV 1)]]
      ["id"] none 10000 rfl rfl⟩

/-- C4 (amended): index construction does not replace duplicate keys — every
row keeps its own entry, in row order, so a side with a repeated key tuple has
several index entries for that key rather than one row per key. -/
theorem index_retains_duplicates {kc : List String} {rows : List Row}
    {idx : List (Key × Row)} (h : buildIndex kc rows = .ok idx) :
    idx = rows.map (fun r => ((keyOf kc r).getD [], dropKeys kc r))
    ∧ idx.length = rows.length := by
  have he := buildIndex_ok_eq_map h
  exact ⟨he, by rw [he, List.length_map]⟩

theorem index_retains_duplicates_witness :
    (buildIndex ["id"] [[("id", Value.intV 1), ("v", Value.intV 10)],
        [("id", Value.intV 1), ("v", Value.intV 20)]] =
      .ok [([Value.intV 1], [("v", Value.intV 10)]),
           ([Value.intV 1], [("v", Value.intV 20)])])
    ∧ ([([Value.intV 1], [("v", Value.intV 10)]),
        ([Value.intV 1], [("v", Value.intV 20)])] =
        List.map (fun r => ((keyOf ["id"] r).getD [], dropKeys ["id"] r))
          [[("id", Value.intV 1), ("v", Value.intV 10)],
           [("id", Value.intV 1), ("v", Value.intV 20)]]
      ∧ ([([Value.intV 1], [("v", Value.intV 10)]),
          ([Value.intV 1], [("v", Value.intV 20)])] :
            List (Key × Row)).length =
          ([[("id", Value.intV 1), ("v", Value.intV 10)],
            [("id", Value.intV 1), ("v", Value.intV 20)]] :
            List Row).length) :=
  ⟨rfl, index_retains_duplicates rfl⟩

/-- C4, as stated: refuted — with a duplicated key tuple, the later
occurrence does not replace the earlier one in the index (both entries
remain, `df.loc` on that key returns two rows), and a subsequent comparison
step on a duplicated common key aborts instead of operating on exactly one
row per key per side. -/
theorem dup_key_last_wins_counterexample :
    buildIndex ["id"] [[("id", Value.intV 1), ("v", Value.intV 10)],
        [("id", Value.intV 1), ("v", Value.intV 20)]] =
      .ok [([Value.intV 1], [("v", Value.intV 10)]),
           ([Value.intV 1], [("v", Value.intV 20)])]
    ∧ (locRecords [([Value.intV 1], [("v", Value.intV 10)]),
          ([Value.intV 1], [("v", Value.intV 20)])] [Value.intV 1]).length = 2
    ∧ compare_tables [[("id", Value.intV 1), ("v", Value.intV 10)],
          [("id", Value.intV 1), ("v", Value.intV 20)]]
        [[("id", Value.intV 1), ("v", Value.intV 10)]] ["id"] none 10000 =
        .error .duplicateKeyAmbiguous := by
  refine ⟨rfl, rfl, rfl⟩

/-- C10: a negative chunk size is silently accepted — the chunk loop never
runs, so the result is normally shaped with empty `value_differences`
regardless of the common rows' values; a chunk size of exactly zero raises
(zero range step) and no result is returned. -/
theorem chunk_size_nonpositive {A B : List Row} {kc : List String}
    {cc : Option (List String)} {hIdx sIdx : List (Key × Row)}
    (hA : buildIndex kc A = .ok hIdx) (hB : buildIndex kc B = .ok sIdx) :
    (∀ cs : Int, cs < 0 →
      compare_tables A B kc cc cs =
        .ok { hana_row_count := A.length
              snowflake_row_count := B.length
              columns_compared := cc.getD (resolvedColumns hIdx sIdx)
              only_in_hana := fullRows kc hIdx
                (indexDifference (hIdx.map (fun e => e.1))
                  (sIdx.map (fun e => e.1)))
              only_in_snowflake := fullRows kc sIdx
                (indexDifference (sIdx.map (fun e => e.1))
                  (hIdx.map (fun e => e.1)))
              value_differences := [] })
    ∧ compare_tables A B kc cc 0 = .error .zeroChunkSize := by
  constructor
  · intro cs hneg
    rw [compare_tables_ok_unfold hA hB (by omega)]
    have hcs : chunkSlices (indexIntersection (hIdx.map (fun e => e.1))
        (sIdx.map (fun e => e.1))) cs = [] := by
      unfold chunkSlices chunkStarts
      rw [if_pos (by omega)]
      rfl
    rw [hcs]
    rfl
  · unfold compare_tables
    rw [hA, hB]
    simp

theorem chunk_size_nonpositive_witness :
    (buildIndex ["id"] [[("id", Value.intV 1), ("v", Value.intV 1)]] =
      .ok [([Value.intV 1], [("v", Value.intV 1)])])
    ∧ (buildIndex ["id"] [[("id", Value.intV 1), ("v", Value.intV 2)]] =
      .ok [([Value.intV 1], [("v", Value.intV 2)])])
    ∧ ((∀ cs : Int, cs < 0 →
        compare_tables [[("id", Value.intV 1), ("v", Value.intV 1)]]
          [[("id", Value.intV 1), ("v", Value.intV 2)]] ["id"] none cs =
          .ok { hana_row_count :=
                  [[("id", Value.intV 1), ("v", Value.intV 1)]].length
                snowflake_row_count :=
                  [[("id", Value.intV 1), ("v", Value.intV 2)]].length
                columns_compared := (none : Option (List String)).getD
                  (resolvedColumns [([Value.intV 1], [("v", Value.intV 1)])]
                    [([Value.intV 1], [("v", Value.intV 2)])])
                only_in_hana := fullRows ["id"]
                  [([Value.intV 1], [("v", Value.intV 1)])]
                  (indexDifference
                    ([([Value.intV 1], [("v", Value.intV 1)])].map
                      (fun e => e.1))
                    ([([Value.intV 1], [("v", Value.intV 2)])].map
                      (fun e => e.1)))
                only_in_snowflake := fullRows ["id"]
                  [([Value.intV 1], [("v", Value.intV 2)])]
                  (indexDifference
                    ([([Value.intV 1], [("v", Value.intV 2)])].map
                      (fun e => e.1))
                    ([([Value.intV 1], [("v", Value.intV 1)])].map
                      (fun e => e.1)))
                value_differences := [] })
      ∧ compare_tables [[("id", Value.intV 1), ("v", Value.intV 1)]]
          [[("id", Value.intV 1), ("v", Value.intV 2)]] ["id"] none 0 =
          .error .zeroChunkSize) :=
  ⟨rfl, rfl,
    @chunk_size_nonpositive [[("id", Value.intV 1), ("v", Value.intV 1)]]
      [[("id", Value.intV 1), ("v", Value.intV 2)]] ["id"] none
      [([Value.intV 1], [("v", Value.intV 1)])]
      [([Value.intV 1], [("v", Value.intV 2)])] rfl rfl⟩

/-- C5: an empty key-column list, or any row lacking a key column, makes the
comparison fail with the schema error corresponding to the malformed input;
when the key columns are non-empty and present in every row, no schema error
is raised. -/
theorem schema_error_precondition (A B : List Row) (kc : List String)
    (cc : Option (List String)) (cs : Int) :
    compare_tables A B [] cc cs = .error .emptyKeys
    ∧ (kc ≠ [] → (∃ r, (r ∈ A ∨ r ∈ B) ∧ ∃ c ∈ kc, rowGet r c = none) →
        compare_tables A B kc cc cs = .error .missingKeyColumn)
    ∧ (kc ≠ [] → (∀ r, (r ∈ A ∨ r ∈ B) → ∀ c ∈ kc, rowGet r c ≠ none) →
        compare_tables A B kc cc cs ≠ .error .emptyKeys ∧
        compare_tables A B kc cc cs ≠ .error .missingKeyColumn) := by
  refine ⟨?_, ?_, ?_⟩
  · have hA : buildIndex [] A = .error .emptyKeys := by
      unfold buildIndex
      rw [if_pos rfl]
    unfold compare_tables
    rw [hA]
    cases hB : buildIndex [] B <;> rfl
  · rintro hkc ⟨r, hrab, hc⟩
    rcases hrab with hr | hr
    · have hA : buildIndex kc A = .error .missingKeyColumn :=
        buildIndex_error_missing hkc ⟨r, hr, keyOf_eq_none_iff.mpr hc⟩
      unfold compare_tables
      rw [hA]
      cases hB : buildIndex kc B <;> rfl
    · have hBerr : buildIndex kc B = .error .missingKeyColumn :=
        buildIndex_error_missing hkc ⟨r, hr, keyOf_eq_none_iff.mpr hc⟩
      cases hA : buildIndex kc A with
      | ok hIdx =>
          unfold compare_tables
          rw [hA, hBerr]
      | error e =>
          have he := buildIndex_error_kind hkc hA
          subst he
          unfold compare_tables
          rw [hA]
          cases hB : buildIndex kc B <;> rfl
  · intro hkc hall
    have hA : buildIndex kc A =
        .ok (A.map (fun r => ((keyOf kc r).getD [], dropKeys kc r))) :=
      buildIndex_ok_of_keys hkc (fun r hr hnone => by
        obtain ⟨c, hck, hgc⟩ := keyOf_eq_none_iff.mp hnone
        exact hall r (Or.inl hr) c hck hgc)
    have hB : buildIndex kc B =
        .ok (B.map (fun r => ((keyOf kc r).getD [], dropKeys kc r))) :=
      buildIndex_ok_of_keys hkc (fun r hr hnone => by
        obtain ⟨c, hck, hgc⟩ := keyOf_eq_none_iff.mp hnone
        exact hall r (Or.inr hr) c hck hgc)
    by_cases h0 : cs = 0
    · subst h0
      have hcmp : compare_tables A B kc cc 0 = .error .zeroChunkSize := by
        unfold compare_tables
        rw [hA, hB]
        simp
      rw [hcmp]
      constructor <;> simp
    · rw [compare_tables_ok_unfold hA hB h0]
      cases hm : mapExcept
          (perKeyDiff kc
            (cc.getD (resolvedColumns
              (A.map (fun r => ((keyOf kc r).getD [], dropKeys kc r)))
              (B.map (fun r => ((keyOf kc r).getD [], dropKeys kc r)))))
            (A.map (fun r => ((keyOf kc r).getD [], dropKeys kc r)))
            (B.map (fun r => ((keyOf kc r).getD [], dropKeys kc r))))
          ((chunkSlices (indexIntersection
            ((A.map (fun r => ((keyOf kc r).getD [], dropKeys kc r))).map
              (fun e => e.1))
            ((B.map (fun r => ((keyOf kc r).getD [], dropKeys kc r))).map
              (fun e => e.1))) cs).flatten) with
      | ok recs => constructor <;> simp
      | error e =>
          obtain ⟨k, _, hk⟩ := mapExcept_error_mem hm
          have he := perKeyDiff_error_kind hk
          subst he
          constructor <;> simp

theorem schema_error_precondition_witness :
    compare_tables [[("v", Value.intV 1)]] [] [] none 5 = .error .emptyKeys
    ∧ compare_tables [[("v", Value.intV 1)]] [] ["id"] none 5 =
        .error .missingKeyColumn
    ∧ compare_tables [[("id", Value.intV 1)]] [] ["id"] none 5 ≠
        .error .emptyKeys
    ∧ compare_tables [[("id", Value.intV 1)]] [] ["id"] none 5 ≠
        .error .missingKeyColumn := by
  have h1 := schema_error_precondition [[("v", Value.intV 1)]] [] ["id"] none 5
  have h2 := schema_error_precondition [[("id", Value.intV 1)]] [] ["id"] none 5
  refine ⟨h1.1, ?_, ?_⟩
  · exact h1.2.1 (by decide)
      ⟨[("v", Value.intV 1)], Or.inl (by simp), "id", by simp, rfl⟩
  · refine h2.2.2 (by decide) ?_
    intro r hr c hc
    rcases hr with h | h
    · have hr1 : r = [("id", Value.intV 1)] := by simpa using h
      subst hr1
      have hc1 : c = "id" := by simpa using hc
      subst hc1
      decide
    · simp at h

theorem mem_idxColumns_buildIndex {kc : List String} {rows : List Row}
    {idx : List (Key × Row)} (h : buildIndex kc rows = .ok idx) (c : String) :
    c ∈ idxColumns idx ↔ c ∈ rowsColumns rows ∧ c ∉ kc := by
  have hsnd := buildIndex_ok_snd h
  simp only [idxColumns, rowsColumns, List.mem_dedup]
  constructor
  · intro hc
    rw [List.mem_flatMap] at hc
    obtain ⟨e, he, hce⟩ := hc
    have h2 : e.2 ∈ rows.map (dropKeys kc) := by
      rw [← hsnd]
      exact List.mem_map_of_mem Prod.snd he
    rw [List.mem_map] at h2
    obtain ⟨r, hr, hre⟩ := h2
    rw [← hre] at hce
    rw [List.mem_map] at hce
    obtain ⟨p, hp, hpc⟩ := hce
    rw [dropKeys, List.mem_filter] at hp
    obtain ⟨hpr, hpk⟩ := hp
    subst hpc
    refine ⟨?_, by simpa using hpk⟩
    rw [List.mem_flatMap]
    exact ⟨r, hr, List.mem_map.mpr ⟨p, hpr, rfl⟩⟩
  · rintro ⟨hc, hck⟩
    rw [List.mem_flatMap] at hc
    obtain ⟨r, hr, hcr⟩ := hc
    rw [List.mem_map] at hcr
    obtain ⟨p, hp, hpc⟩ := hcr
    have h2 : dropKeys kc r ∈ idx.map Prod.snd := by
      rw [hsnd]
      exact List.mem_map_of_mem _ hr
    rw [List.mem_map] at h2
    obtain ⟨e, he, hee⟩ := h2
    rw [List.mem_flatMap]
    refine ⟨e, he, ?_⟩
    rw [hee]
    subst hpc
    exact List.mem_map.mpr ⟨p, List.mem_filter.mpr ⟨hp, by simpa using hck⟩, rfl⟩

/-- C7: with `compare_columns` omitted, the resolved compare columns are (as
a set) the intersection of the two sides' column names minus the key columns;
an empty intersection still yields a successful run with an empty
compare-column list and empty `value_differences`. -/
theorem column_resolution {A B : List Row} {kc : List String} {cs : Int}
    {hIdx sIdx : List (Key × Row)}
    (hA : buildIndex kc A = .ok hIdx) (hB : buildIndex kc B = .ok sIdx) :
    (∀ res, compare_tables A B kc none cs = .ok res →
      res.columns_compared.toFinset =
        ((rowsColumns A).toFinset ∩ (rowsColumns B).toFinset) \ kc.toFinset)
    ∧ (cs ≠ 0 → resolvedColumns hIdx sIdx = [] →
        ∃ res, compare_tables A B kc none cs = .ok res ∧
          res.columns_compared = [] ∧ res.value_differences = []) := by
  have hresolved : ∀ c, c ∈ resolvedColumns hIdx sIdx ↔
      (c ∈ rowsColumns A ∧ c ∈ rowsColumns B) ∧ c ∉ kc := by
    intro c
    rw [resolvedColumns, List.mem_filter]
    simp only [decide_eq_true_eq]
    rw [mem_idxColumns_buildIndex hA c, mem_idxColumns_buildIndex hB c]
    tauto
  constructor
  · intro res hres
    have h0 : cs ≠ 0 := by
      intro h0
      subst h0
      unfold compare_tables at hres
      rw [hA, hB] at hres
      simp at hres
    rw [compare_tables_ok_unfold hA hB h0] at hres
    cases hm : mapExcept
        (perKeyDiff kc ((none : Option (List String)).getD
          (resolvedColumns hIdx sIdx)) hIdx sIdx)
        ((chunkSlices (indexIntersection (hIdx.map (fun e => e.1))
          (sIdx.map (fun e => e.1))) cs).flatten) with
    | error e => rw [hm] at hres; cases hres
    | ok recs =>
        rw [hm] at hres
        simp only [Except.ok.injEq] at hres
        subst hres
        ext c
        simp only [List.mem_toFinset, Finset.mem_sdiff, Finset.mem_inter,
          Option.getD_none]
        exact hresolved c
  · intro h0 hnil
    rw [compare_tables_ok_unfold hA hB h0]
    have hcols : (none : Option (List String)).getD
        (resolvedColumns hIdx sIdx) = [] := by
      simp [hnil]
    have hm : mapExcept
        (perKeyDiff kc ((none : Option (List String)).getD
          (resolvedColumns hIdx sIdx)) hIdx sIdx)
        ((chunkSlices (indexIntersection (hIdx.map (fun e => e.1))
          (sIdx.map (fun e => e.1))) cs).flatten) =
        .ok (((chunkSlices (indexIntersection (hIdx.map (fun e => e.1))
          (sIdx.map (fun e => e.1))) cs).flatten).map
            (fun _ => ([] : List DiffRecord))) := by
      apply mapExcept_ok_of_forall
      intro k _
      rw [hcols]
      exact perKeyDiff_nil_cols
    rw [hm]
    refine ⟨_, rfl, by simpa using hcols, ?_⟩
    simp only [List.flatten_eq_nil_iff, List.mem_map]
    rintro l ⟨k, _, hl⟩
    exact hl.symm

theorem column_resolution_witness :
    (buildIndex ["id"] [[("id", Value.intV 1), ("a", Value.intV 2)]] =
      .ok [([Value.intV 1], [("a", Value.intV 2)])])
    ∧ (buildIndex ["id"] [[("id", Value.intV 1), ("b", Value.intV 3)]] =
      .ok [([Value.intV 1], [("b", Value.intV 3)])])
    ∧ (0 : Int) ≠ 7
    ∧ ((∀ res, compare_tables [[("id", Value.intV 1), ("a", Value.intV 2)]]
          [[("id", Value.intV 1), ("b", Value.intV 3)]] ["id"] none 7 =
            .ok res →
        res.columns_compared.toFinset =
          ((rowsColumns [[("id", Value.intV 1), ("a", Value.intV 2)]]).toFinset ∩
            (rowsColumns [[("id", Value.intV 1), ("b", Value.intV 3)]]).toFinset) \
            (["id"] : List String).toFinset)
      ∧ ((7 : Int) ≠ 0 →
          resolvedColumns [([Value.intV 1], [("a", Value.intV 2)])]
            [([Value.intV 1], [("b", Value.intV 3)])] = [] →
          ∃ res, compare_tables [[("id", Value.intV 1), ("a", Value.intV 2)]]
            [[("id", Value.intV 1), ("b", Value.intV 3)]] ["id"] none 7 =
              .ok res ∧
            res.columns_compared = [] ∧ res.value_differences = [])) :=
  ⟨rfl, rfl, by decide,
    @column_resolution [[("id", Value.intV 1), ("a", Value.intV 2)]]
      [[("id", Value.intV 1), ("b", Value.intV 3)]] ["id"] 7
      [([Value.intV 1], [("a", Value.intV 2)])]
      [([Value.intV 1], [("b", Value.intV 3)])] rfl rfl⟩

/-- C1: the comparison partitions the keys exactly — `only_in_hana` holds,
as full row content, precisely the source index entries whose key is absent
from the target key list (symmetrically for the target side), the common set
is the intersection of both key sets, and difference plus common reconstructs
each side's key set with no key double-counted or dropped. -/
theorem partition_completeness {A B : List Row} {kc : List String}
    {cc : Option (List String)} {cs : Int} {hIdx sIdx : List (Key × Row)}
    {res : CompareResult}
    (hA : buildIndex kc A = .ok hIdx) (hB : buildIndex kc B = .ok sIdx)
    (hres : compare_tables A B kc cc cs = .ok res) :
    (∀ r : Row, r ∈ res.only_in_hana ↔
        ∃ e ∈ hIdx, e.1 ∉ sIdx.map (fun e => e.1) ∧ r = kc.zip e.1 ++ e.2)
    ∧ (∀ r : Row, r ∈ res.only_in_snowflake ↔
        ∃ e ∈ sIdx, e.1 ∉ hIdx.map (fun e => e.1) ∧ r = kc.zip e.1 ++ e.2)
    ∧ (indexIntersection (hIdx.map (fun e => e.1))
          (sIdx.map (fun e => e.1))).toFinset =
        (hIdx.map (fun e => e.1)).toFinset ∩ (sIdx.map (fun e => e.1)).toFinset
    ∧ (indexDifference (hIdx.map (fun e => e.1))
          (sIdx.map (fun e => e.1))).toFinset ∪
        (indexIntersection (hIdx.map (fun e => e.1))
          (sIdx.map (fun e => e.1))).toFinset =
        (hIdx.map (fun e => e.1)).toFinset
    ∧ (indexDifference (hIdx.map (fun e => e.1))
          (sIdx.map (fun e => e.1))).toFinset ∩
        (indexIntersection (hIdx.map (fun e => e.1))
          (sIdx.map (fun e => e.1))).toFinset = ∅
    ∧ (indexDifference (sIdx.map (fun e => e.1))
          (hIdx.map (fun e => e.1))).toFinset ∪
        (indexIntersection (hIdx.map (fun e => e.1))
          (sIdx.map (fun e => e.1))).toFinset =
        (sIdx.map (fun e => e.1)).toFinset
    ∧ (indexDifference (sIdx.map (fun e => e.1))
          (hIdx.map (fun e => e.1))).toFinset ∩
        (indexIntersection (hIdx.map (fun e => e.1))
          (sIdx.map (fun e => e.1))).toFinset = ∅ := by
  have h0 : cs ≠ 0 := by
    intro h0
    subst h0
    unfold compare_tables at hres
    rw [hA, hB] at hres
    simp at hres
  rw [compare_tables_ok_unfold hA hB h0] at hres
  have honly : res.only_in_hana = fullRows kc hIdx
      (indexDifference (hIdx.map (fun e => e.1)) (sIdx.map (fun e => e.1)))
    ∧ res.only_in_snowflake = fullRows kc sIdx
      (indexDifference (sIdx.map (fun e => e.1)) (hIdx.map (fun e => e.1))) := by
    cases hm : mapExcept
        (perKeyDiff kc (cc.getD (resolvedColumns hIdx sIdx)) hIdx sIdx)
        ((chunkSlices (indexIntersection (hIdx.map (fun e => e.1))
          (sIdx.map (fun e => e.1))) cs).flatten) with
    | error e => rw [hm] at hres; cases hres
    | ok recs =>
        rw [hm] at hres
        simp only [Except.ok.injEq] at hres
        subst hres
        exact ⟨rfl, rfl⟩
  refine ⟨?_, ?_, ?_, ?_, ?_, ?_, ?_⟩
  · intro r
    rw [honly.1, mem_fullRows]
    constructor
    · rintro ⟨k, hk, e, he, hek, hr⟩
      rw [mem_indexDifference] at hk
      exact ⟨e, he, by rw [hek]; exact hk.2, hr⟩
    · rintro ⟨e, he, hek, hr⟩
      refine ⟨e.1, ?_, e, he, rfl, hr⟩
      rw [mem_indexDifference]
      exact ⟨List.mem_map.mpr ⟨e, he, rfl⟩, hek⟩
  · intro r
    rw [honly.2, mem_fullRows]
    constructor
    · rintro ⟨k, hk, e, he, hek, hr⟩
      rw [mem_indexDifference] at hk
      exact ⟨e, he, by rw [hek]; exact hk.2, hr⟩
    · rintro ⟨e, he, hek, hr⟩
      refine ⟨e.1, ?_, e, he, rfl, hr⟩
      rw [mem_indexDifference]
      exact ⟨List.mem_map.mpr ⟨e, he, rfl⟩, hek⟩
  · ext k
    simp only [List.mem_toFinset, Finset.mem_inter, mem_indexIntersection]
  · ext k
    simp only [List.mem_toFinset, Finset.mem_union, mem_indexDifference,
      mem_indexIntersection]
    tauto
  · ext k
    simp only [List.mem_toFinset, Finset.mem_inter, mem_indexDifference,
      mem_indexIntersection, Finset.not_mem_empty, iff_false]
    tauto
  · ext k
    simp only [List.mem_toFinset, Finset.mem_union, mem_indexDifference,
      mem_indexIntersection]
    tauto
  · ext k
    simp only [List.mem_toFinset, Finset.mem_inter, mem_indexDifference,
      mem_indexIntersection, Finset.not_mem_empty, iff_false]
    tauto

theorem partition_completeness_witness :
    (buildIndex ["id"] [[("id", Value.intV 1), ("v", Value.strV "x")], [("id", Value.intV 2), ("v", Value.strV "y")]] = .ok [([Value.intV 1], [("v", Value.strV "x")]), ([Value.intV 2], [("v", Value.strV "y")])])
    ∧ (buildIndex ["id"] [[("id", Value.intV 1), ("v", Value.strV "x")], [("id", Value.intV 3), ("v", Value.strV "z")]] = .ok [([Value.intV 1], [("v", Value.strV "x")]), ([Value.intV 3], [("v", Value.strV "z")])])
    ∧ (compare_tables [[("id", Value.intV 1), ("v", Value.strV "x")], [("id", Value.intV 2), ("v", Value.strV "y")]] [[("id", Value.intV 1), ("v", Value.strV "x")], [("id", Value.intV 3), ("v", Value.strV "z")]] ["id"] none 10000 = .ok { hana_row_count := 2, snowflake_row_count := 2, columns_compared := ["v"], only_in_hana := [[("id", Value.intV 2), ("v", Value.strV "y")]], only_in_snowflake := [[("id", Value.intV 3), ("v", Value.strV "z")]], value_differences := [] })
    ∧ ((∀ r : Row, r ∈ (CompareResult.only_in_hana { hana_row_count := 2, snowflake_row_count := 2, columns_compared := ["v"], only_in_hana := [[("id", Value.intV 2), ("v", Value.strV "y")]], only_in_snowflake := [[("id", Value.intV 3), ("v", Value.strV "z")]], value_differences := [] }) ↔
          ∃ e ∈ [([Value.intV 1], [("v", Value.strV "x")]), ([Value.intV 2], [("v", Value.strV "y")])], e.1 ∉ [([Value.intV 1], [("v", Value.strV "x")]), ([Value.intV 3], [("v", Value.strV "z")])].map (fun e => e.1) ∧ r = (["id"] : List String).zip e.1 ++ e.2)
      ∧ (∀ r : Row, r ∈ (CompareResult.only_in_snowflake { hana_row_count := 2, snowflake_row_count := 2, columns_compared := ["v"], only_in_hana := [[("id", Value.intV 2), ("v", Value.strV "y")]], only_in_snowflake := [[("id", Value.intV 3), ("v", Value.strV "z")]], value_differences := [] }) ↔
          ∃ e ∈ [([Value.intV 1], [("v", Value.strV "x")]), ([Value.intV 3], [("v", Value.strV "z")])], e.1 ∉ [([Value.intV 1], [("v", Value.strV "x")]), ([Value.intV 2], [("v", Value.strV "y")])].map (fun e => e.1) ∧ r = (["id"] : List String).zip e.1 ++ e.2)
      ∧ (indexIntersection ([([Value.intV 1], [("v", Value.strV "x")]), ([Value.intV 2], [("v", Value.strV "y")])].map (fun e => e.1)) ([([Value.intV 1], [("v", Value.strV "x")]), ([Value.intV 3], [("v", Value.strV "z")])].map (fun e => e.1))).toFinset = ([([Value.intV 1], [("v", Value.strV "x")]), ([Value.intV 2], [("v", Value.strV "y")])].map (fun e => e.1)).toFinset ∩ ([([Value.intV 1], [("v", Value.strV "x")]), ([Value.intV 3], [("v", Value.strV "z")])].map (fun e => e.1)).toFinset
      ∧ (indexDifference ([([Value.intV 1], [("v", Value.strV "x")]), ([Value.intV 2], [("v", Value.strV "y")])].map (fun e => e.1)) ([([Value.intV 1], [("v", Value.strV "x")]), ([Value.intV 3], [("v", Value.strV "z")])].map (fun e => e.1))).toFinset ∪ (indexIntersection ([([Value.intV 1], [("v", Value.strV "x")]), ([Value.intV 2], [("v", Value.strV "y")])].map (fun e => e.1)) ([([Value.intV 1], [("v", Value.strV "x")]), ([Value.intV 3], [("v", Value.strV "z")])].map (fun e => e.1))).toFinset = ([([Value.intV 1], [("v", Value.strV "x")]), ([Value.intV 2], [("v", Value.strV "y")])].map (fun e => e.1)).toFinset
      ∧ (indexDifference ([([Value.intV 1], [("v", Value.strV "x")]), ([Value.intV 2], [("v", Value.strV "y")])].map (fun e => e.1)) ([([Value.intV 1], [("v", Value.strV "x")]), ([Value.intV 3], [("v", Value.strV "z")])].map (fun e => e.1))).toFinset ∩ (indexIntersection ([([Value.intV 1], [("v", Value.strV "x")]), ([Value.intV 2], [("v", Value.strV "y")])].map (fun e => e.1)) ([([Value.intV 1], [("v", Value.strV "x")]), ([Value.intV 3], [("v", Value.strV "z")])].map (fun e => e.1))).toFinset = ∅
      ∧ (indexDifference ([([Value.intV 1], [("v", Value.strV "x")]), ([Value.intV 3], [("v", Value.strV "z")])].map (fun e => e.1)) ([([Value.intV 1], [("v", Value.strV "x")]), ([Value.intV 2], [("v", Value.strV "y")])].map (fun e => e.1))).toFinset ∪ (indexIntersection ([([Value.intV 1], [("v", Value.strV "x")]), ([Value.intV 2], [("v", Value.strV "y")])].map (fun e => e.1)) ([([Value.intV 1], [("v", Value.strV "x")]), ([Value.intV 3], [("v", Value.strV "z")])].map (fun e => e.1))).toFinset = ([([Value.intV 1], [("v", Value.strV "x")]), ([Value.intV 3], [("v", Value.strV "z")])].map (fun e => e.1)).toFinset
      ∧ (indexDifference ([([Value.intV 1], [("v", Value.strV "x")]), ([Value.intV 3], [("v", Value.strV "z")])].map (fun e => e.1)) ([([Value.intV 1], [("v", Value.strV "x")]), ([Value.intV 2], [("v", Value.strV "y")])].map (fun e => e.1))).toFinset ∩ (indexIntersection ([([Value.intV 1], [("v", Value.strV "x")]), ([Value.intV 2], [("v", Value.strV "y")])].map (fun e => e.1)) ([([Value.intV 1], [("v", Value.strV "x")]), ([Value.intV 3], [("v", Value.strV "z")])].map (fun e => e.1))).toFinset = ∅) :=
  ⟨rfl, rfl, rfl,
    @partition_completeness [[("id", Value.intV 1), ("v", Value.strV "x")], [("id", Value.intV 2), ("v", Value.strV "y")]] [[("id", Value.intV 1), ("v", Value.strV "x")], [("id", Value.intV 3), ("v", Value.strV "z")]] ["id"] none 10000 [([Value.intV 1], [("v", Value.strV "x")]), ([Value.intV 2], [("v", Value.strV "y")])] [([Value.intV 1], [("v", Value.strV "x")]), ([Value.intV 3], [("v", Value.strV "z")])] { hana_row_count := 2, snowflake_row_count := 2, columns_compared := ["v"], only_in_hana := [[("id", Value.intV 2), ("v", Value.strV "y")]], only_in_snowflake := [[("id", Value.intV 3), ("v", Value.strV "z")]], value_differences := [] } rfl rfl rfl⟩

theorem rowDiffsV2_eq (cols : List String) (sr tr : Row) :
    rowDiffsV2 cols sr tr =
      (rowDiffs cols sr tr).map (fun p => (p.1, renamePair p.2)) := by
  unfold rowDiffsV2 rowDiffs
  rw [List.map_filterMap]
  apply List.filterMap_congr
  intro c _
  by_cases hd : valuesDiffer (effValue sr c) (effValue tr c) = true
  · simp [hd, renamePair]
  · simp [hd]

theorem perKeyDiffV2_eq (kc cols : List String)
    (srcIdx tgtIdx : List (Key × Row)) (k : Key) :
    perKeyDiffV2 kc cols srcIdx tgtIdx k =
      (perKeyDiff kc cols srcIdx tgtIdx k).map (List.map renameRecord) := by
  unfold perKeyDiff perKeyDiffV2
  cases h1 : locRecords srcIdx k with
  | nil =>
      cases h2 : locRecords tgtIdx k <;>
        by_cases hc : cols = [] <;> simp [hc, Except.map]
  | cons e t1 =>
      cases t1 with
      | cons f t1x =>
          cases h2 : locRecords tgtIdx k <;>
            by_cases hc : cols = [] <;> simp [hc, Except.map]
      | nil =>
          cases h2 : locRecords tgtIdx k with
          | nil => by_cases hc : cols = [] <;> simp [hc, Except.map]
          | cons f t2 =>
              cases t2 with
              | cons g t2x => by_cases hc : cols = [] <;> simp [hc, Except.map]
              | nil =>
                  simp only [rowDiffsV2_eq]
                  by_cases hds : rowDiffs cols e.2 f.2 = [] <;>
                    simp [hds, Except.map, renameRecord]

/-- C9: the two copies of the engine compute the same comparison for every
input, up to the renaming of the result fields
(`hana_...`/`snowflake_...` versus `src_...`/`tgt_...`), modulo the
timestamp (absent from the model). -/
theorem engines_equivalent (A B : List Row) (kc : List String)
    (cc : Option (List String)) (cs : Int) :
    compare_tablesV2 A B kc cc cs =
      (compare_tables A B kc cc cs).map renameResult := by
  unfold compare_tables compare_tablesV2
  cases hA : buildIndex kc A with
  | error e => cases hB : buildIndex kc B <;> simp [Except.map]
  | ok hIdx =>
      cases hB : buildIndex kc B with
      | error e => simp [Except.map]
      | ok sIdx =>
          by_cases h0 : cs = 0
          · simp [h0, Except.map]
          · simp only [if_neg h0]
            have hpk : ∀ k, perKeyDiffV2 kc (cc.getD (resolvedColumns hIdx sIdx))
                hIdx sIdx k =
                ((perKeyDiff kc (cc.getD (resolvedColumns hIdx sIdx))
                  hIdx sIdx) k).map (List.map renameRecord) :=
              fun k => perKeyDiffV2_eq kc _ hIdx sIdx k
            rw [show (perKeyDiffV2 kc (cc.getD (resolvedColumns hIdx sIdx))
                hIdx sIdx) = (fun k => ((perKeyDiff kc
                  (cc.getD (resolvedColumns hIdx sIdx)) hIdx sIdx) k).map
                    (List.map renameRecord)) from funext hpk]
            rw [mapExcept_comp_map]
            cases hm : mapExcept (perKeyDiff kc
                (cc.getD (resolvedColumns hIdx sIdx)) hIdx sIdx)
                ((chunkSlices (indexIntersection (hIdx.map (fun e => e.1))
                  (sIdx.map (fun e => e.1))) cs).flatten) with
            | error e => simp [Except.map]
            | ok recs =>
                simp only [Except.map]
                rw [← List.map_flatten]
                rfl
